import Mathlib

/-!
Verification of the consumer core of the taskq repository.

The development shallowly embeds the Go sources:
  * src/processor/processor.go  — backoff policy, the process() path,
    lifecycle (start/stop), ProcessAll loop, slot-lock acquisition;
  * src/consumer_config.go      — perf profile and config roulette.

Durations are Go `time.Duration` values: int64 nanoseconds, modelled as
`Int` with explicit wrap-around (mod 2^64, two's complement) where the Go
code can overflow.  `uint32` counters are modelled as `Nat` reduced mod
2^32 at each operation.  Floating-point statistics (float64 in Go) are
modelled as exact rationals.
-/

namespace Taskq

/-- Nanoseconds in one second (Go `time.Second`). -/
def nsPerSecond : Int := 1000000000

/-- Nanoseconds in one minute (Go `time.Minute`). -/
def nsPerMinute : Int := 60 * nsPerSecond

/-- Go constant `maxBackoff = 12 * time.Hour`, in nanoseconds. -/
def maxBackoff : Int := 12 * 3600 * nsPerSecond

/-- Go constant `stopTimeout = 30 * time.Second`, in nanoseconds. -/
def stopTimeoutNS : Int := 30 * nsPerSecond

/-- Timeout constant inside `lockWorker` (`1234 * time.Millisecond`). -/
def lockWaitTimeoutMS : Nat := 1234

/-- Two's-complement wrap of an integer into the int64 range
`[-2^63, 2^63)`, as Go arithmetic on `time.Duration` behaves. -/
def wrap64 (n : Int) : Int :=
  let m := n % (2 ^ 64 : Int)
  if m < 2 ^ 63 then m else m - 2 ^ 64

/-- Go conversion `uint(x)` of a signed value: the low 64 bits. -/
def goUint64 (n : Int) : Nat := (n % (2 ^ 64 : Int)).toNat

/-- Go conversion `uint32(x)` of a signed value: the low 32 bits. -/
def goUint32 (n : Int) : Nat := (n % (2 ^ 32 : Int)).toNat

/-- Go left shift on int64: `x << s` shifts in zeros and wraps mod 2^64;
a shift count of 64 or more yields 0. -/
def goShl64 (x : Int) (s : Nat) : Int :=
  if 64 ≤ s then 0 else wrap64 (x * 2 ^ s)

/-- Embedding of `exponentialBackoff(dur, retry)`
(src/processor/processor.go:567-573):
`dur <<= uint(retry - 1); if dur > maxBackoff { dur = maxBackoff }`. -/
def exponentialBackoff (dur retry : Int) : Int :=
  let d := goShl64 dur (goUint64 (retry - 1))
  if maxBackoff < d then maxBackoff else d

lemma wrap64_eq_self {n : Int} (h0 : 0 ≤ n) (h1 : n < 2 ^ 63) : wrap64 n = n := by
  unfold wrap64
  have hlt : n < (2 ^ 64 : Int) := lt_trans h1 (by norm_num)
  rw [Int.emod_eq_of_lt h0 hlt]
  simp only [if_pos h1]

lemma goUint64_eq_toNat {n : Int} (h0 : 0 ≤ n) (h1 : n < 2 ^ 64) :
    goUint64 n = n.toNat := by
  unfold goUint64
  rw [Int.emod_eq_of_lt h0 h1]

/-- Two's-complement wrap of an integer into the int32 range
`[-2^31, 2^31)`, as Go arithmetic on int32 fields behaves. -/
def wrap32 (n : Int) : Int :=
  let m := n % (2 ^ 32 : Int)
  if m < 2 ^ 31 then m else m - 2 ^ 32

lemma wrap32_eq_self {n : Int} (h0 : -(2 ^ 31) ≤ n) (h1 : n < 2 ^ 31) :
    wrap32 n = n := by
  have e32 : (2 : Int) ^ 32 = 4294967296 := by norm_num
  have e31 : (2 : Int) ^ 31 = 2147483648 := by norm_num
  simp only [wrap32, e32, e31] at h0 h1 ⊢
  split_ifs with h
  · omega
  · omega

/-- C8. As stated the claim fails: the Go shift is int64 arithmetic, so for
large retry counts `min << (retry-1)` overflows and the clamped result is
the wrapped value, not 12 h.  Concretely, with `min = 1 s` (10^9 ns) and
`retry = 64` the product `min * 2^63` exceeds 12 h, yet the code returns
0, not `maxBackoff`. -/
theorem c8_counterexample :
    exponentialBackoff 1000000000 64 = 0 ∧
    maxBackoff < 1000000000 * 2 ^ 63 ∧
    (0 : Int) ≠ maxBackoff := by
  refine ⟨?_, by norm_num [maxBackoff, nsPerSecond], by norm_num [maxBackoff, nsPerSecond]⟩
  decide

/-- C8 (amended): for `1 ≤ retry < 2^63`, `0 < min`, and
`min * 2^(retry-1) < 2^63` (no int64 overflow), `exponentialBackoff`
returns `min * 2^(retry-1)` clamped at `maxBackoff` (12 h): the product
itself whenever it is at most 12 h, and 12 h otherwise. -/
theorem c8_backoff_clamped (dur retry : Int)
    (hr1 : 1 ≤ retry) (hr2 : retry < 2 ^ 63) (hd : 0 < dur)
    (hov : dur * 2 ^ (retry - 1).toNat < 2 ^ 63) :
    exponentialBackoff dur retry =
      if maxBackoff < dur * 2 ^ (retry - 1).toNat then maxBackoff
      else dur * 2 ^ (retry - 1).toNat := by
  have h0 : (0 : Int) ≤ retry - 1 := by omega
  have h1 : retry - 1 < (2 ^ 64 : Int) := by
    calc retry - 1 < 2 ^ 63 := by omega
    _ < (2 ^ 64 : Int) := by norm_num
  have hs : goUint64 (retry - 1) = (retry - 1).toNat := goUint64_eq_toNat h0 h1
  have hprod0 : (0 : Int) ≤ dur * 2 ^ (retry - 1).toNat :=
    le_of_lt (mul_pos hd (pow_pos (by norm_num) _))
  have hslt : ¬ (64 ≤ (retry - 1).toNat) := by
    intro hge
    have hpow : (2 ^ 63 : Int) ≤ 2 ^ (retry - 1).toNat :=
      pow_le_pow_right₀ (by norm_num) (by omega)
    have : (2 ^ 63 : Int) ≤ dur * 2 ^ (retry - 1).toNat := by
      calc (2 ^ 63 : Int) ≤ 2 ^ (retry - 1).toNat := hpow
      _ = 1 * 2 ^ (retry - 1).toNat := (one_mul _).symm
      _ ≤ dur * 2 ^ (retry - 1).toNat := by
          exact mul_le_mul_of_nonneg_right (by omega) (le_of_lt (pow_pos (by norm_num) _))
    omega
  unfold exponentialBackoff
  rw [hs]
  unfold goShl64
  rw [if_neg hslt, wrap64_eq_self hprod0 hov]

/-- Witness for c8_backoff_clamped: `min = 1 s`, `retry = 4` gives
`8 s`, under the 12 h clamp. -/
theorem c8_backoff_clamped_witness :
    exponentialBackoff 1000000000 4 =
      if maxBackoff < 1000000000 * 2 ^ ((4 : Int) - 1).toNat then maxBackoff
      else 1000000000 * 2 ^ ((4 : Int) - 1).toNat :=
  c8_backoff_clamped 1000000000 4 (by norm_num) (by norm_num) (by norm_num)
    (by decide)

/-- Reserved message as the processor sees it: `Delay` is a Go duration
(int64 nanoseconds) and `ReservedCount` the non-negative redelivery
counter (`msgqueue.Message` fields used by process/releaseBackoff). -/
structure Msg where
  delay : Int
  reservedCount : Nat
deriving DecidableEq

/-- Shape of the `reason` error handed to `releaseBackoff`: the nil error,
a non-nil error that does not implement `Delayer`, or a non-nil error
implementing `Delayer` whose `Delay()` returns `d` nanoseconds. -/
inductive Reason where
  | noErr : Reason
  | plainErr : Reason
  | delayerErr (d : Int) : Reason
deriving DecidableEq

/-- Pause-controller counters touched by `releaseBackoff`: the uint32
fields `delaySec` and `delayCount` of the Processor. -/
structure PauseCtr where
  delaySec : Nat
  delayCount : Nat
deriving DecidableEq

/-- Embedding of `(p *Processor) releaseBackoff(msg, reason)`
(src/processor/processor.go:441-458).  Returns the computed delay and the
updated pause counters: a Delayer reason returns its own delay, storing
`uint32(delay/time.Second)` into `delaySec` and bumping `delayCount` when
the delay exceeds one minute; otherwise a positive `msg.Delay` wins;
otherwise `exponentialBackoff(MinBackoff, msg.ReservedCount)`. -/
def releaseBackoff (minBackoff : Int) (msg : Msg) (reason : Reason)
    (pc : PauseCtr) : Int × PauseCtr :=
  match reason with
  | .delayerErr d =>
      if nsPerMinute < d then
        (d, { delaySec := goUint32 (Int.tdiv d nsPerSecond),
              delayCount := (pc.delayCount + 1) % 2 ^ 32 })
      else (d, pc)
  | .plainErr =>
      if 0 < msg.delay then (msg.delay, pc)
      else (exponentialBackoff minBackoff (msg.reservedCount : Int), pc)
  | .noErr =>
      if 0 < msg.delay then (msg.delay, pc)
      else (exponentialBackoff minBackoff (msg.reservedCount : Int), pc)

/-- C5: releaseBackoff precedence.  A Delayer reason always yields its own
delay, updating the pause counters exactly when the delay exceeds one
minute (storing the delay in whole seconds via the uint32 store, and
bumping the uint32 delay counter); a non-Delayer reason (nil included)
yields the message's own positive delay when there is one, and the
exponential backoff of the reservation count otherwise. -/
theorem c5_release_backoff (minBackoff : Int) (msg : Msg) (pc : PauseCtr) :
    (∀ d : Int, (releaseBackoff minBackoff msg (.delayerErr d) pc).1 = d) ∧
    (∀ d : Int, nsPerMinute < d →
      (releaseBackoff minBackoff msg (.delayerErr d) pc).2 =
        { delaySec := goUint32 (Int.tdiv d nsPerSecond),
          delayCount := (pc.delayCount + 1) % 2 ^ 32 }) ∧
    (∀ d : Int, d ≤ nsPerMinute →
      (releaseBackoff minBackoff msg (.delayerErr d) pc).2 = pc) ∧
    (∀ r : Reason, r = .noErr ∨ r = .plainErr → 0 < msg.delay →
      releaseBackoff minBackoff msg r pc = (msg.delay, pc)) ∧
    (∀ r : Reason, r = .noErr ∨ r = .plainErr → msg.delay ≤ 0 →
      releaseBackoff minBackoff msg r pc =
        (exponentialBackoff minBackoff (msg.reservedCount : Int), pc)) := by
  refine ⟨?_, ?_, ?_, ?_, ?_⟩
  · intro d
    by_cases h : nsPerMinute < d
    · simp only [releaseBackoff, if_pos h]
    · simp only [releaseBackoff, if_neg h]
  · intro d h
    simp only [releaseBackoff, if_pos h]
  · intro d h
    simp only [releaseBackoff, if_neg (not_lt.mpr h)]
  · rintro r (rfl | rfl) h <;> simp only [releaseBackoff, if_pos h]
  · rintro r (rfl | rfl) h <;> simp only [releaseBackoff, if_neg (not_lt.mpr h)]

/-- Witness for c5_release_backoff: a Delayer reason of 2 minutes on a
message with no own delay: the delay is honored, `delaySec` becomes 120,
and `delayCount` goes from 0 to 1; a plain error on the same message
falls through to the exponential backoff. -/
theorem c5_release_backoff_witness :
    (releaseBackoff 1000000 ⟨0, 3⟩ (.delayerErr 120000000000) ⟨0, 0⟩).1 =
      120000000000 ∧
    (releaseBackoff 1000000 ⟨0, 3⟩ (.delayerErr 120000000000) ⟨0, 0⟩).2 =
      { delaySec := goUint32 (Int.tdiv 120000000000 nsPerSecond),
        delayCount := (0 + 1) % 2 ^ 32 } ∧
    releaseBackoff 1000000 ⟨0, 3⟩ .plainErr ⟨0, 0⟩ =
      (exponentialBackoff 1000000 ((3 : Nat) : Int), ⟨0, 0⟩) :=
  ⟨(c5_release_backoff 1000000 ⟨0, 3⟩ ⟨0, 0⟩).1 120000000000,
   (c5_release_backoff 1000000 ⟨0, 3⟩ ⟨0, 0⟩).2.1 120000000000 (by decide),
   (c5_release_backoff 1000000 ⟨0, 3⟩ ⟨0, 0⟩).2.2.2.2 .plainErr (.inr rfl)
     (by decide)⟩

/-- Observable actions taken by `process` (src/processor/processor.go:366-399),
in program order.  The Bool on release/delete records whether a non-nil
reason error was passed. -/
inductive Ev where
  | lockWorkerEv (i : Int) : Ev
  | handleEv : Ev
  | unlockWorkerEv (i : Int) : Ev
  | incProcessed : Ev
  | incRetries : Ev
  | incFails : Ev
  | releaseEv (hasReason : Bool) : Ev
  | deleteEv (hasReason : Bool) : Ev
deriving DecidableEq

/-- Outcome events of `process` after the handler has run: success counts
and deletes; failure retries (release) below the retry limit and fails
(delete) at or above it. -/
def processTail (retryLimit : Int) (msg : Msg) (handlerFails : Bool) :
    List Ev :=
  if handlerFails = false then [.incProcessed, .deleteEv false]
  else if (msg.reservedCount : Int) < retryLimit then
    [.incRetries, .releaseEv true]
  else [.incFails, .deleteEv true]

/-- Result of a `process` call: either the event trace of a completed run,
or a Go runtime panic raised inside `lockWorker` when the worker id
indexes past the end of the `workerChans`/`workerLocks` slices (both of
length `opt.MaxWorkers`, src/processor/processor.go:80-81). -/
inductive ProcOutcome where
  | completed (trace : List Ev) : ProcOutcome
  | panicked (reason : String) : ProcOutcome
deriving DecidableEq

/-- Embedding of `(p *Processor) process(workerId, msg)`
(src/processor/processor.go:366-399).  A message with positive delay is
released immediately.  Otherwise, when `workerId >= 0 && opt.MaxWorkers > 0`,
the source passes the RAW `workerId` (unreduced modulo MaxWorkers) to
lockWorker/unlockWorker: for `workerId < MaxWorkers` the slot lock at that
raw index wraps the handler call; for `workerId >= MaxWorkers` the slice
access `p.workerChans[id]` in lockWorker is out of range and the program
panics before any lock is taken or the handler runs. -/
def process (workerId maxWorkers retryLimit : Int) (msg : Msg)
    (handlerFails : Bool) : ProcOutcome :=
  if 0 < msg.delay then .completed [.releaseEv false]
  else if 0 ≤ workerId ∧ 0 < maxWorkers then
    if workerId < maxWorkers then
      .completed (.lockWorkerEv workerId :: .handleEv ::
        .unlockWorkerEv workerId :: processTail retryLimit msg handlerFails)
    else .panicked "runtime error: index out of range"
  else .completed (.handleEv :: processTail retryLimit msg handlerFails)

lemma process_completed_shape {workerId maxWorkers retryLimit : Int}
    {msg : Msg} {handlerFails : Bool} {trace : List Ev} (hd : msg.delay ≤ 0)
    (h : process workerId maxWorkers retryLimit msg handlerFails =
      .completed trace) :
    trace = .lockWorkerEv workerId :: .handleEv :: .unlockWorkerEv workerId ::
      processTail retryLimit msg handlerFails ∨
    trace = .handleEv :: processTail retryLimit msg handlerFails := by
  unfold process at h
  rw [if_neg (not_lt.mpr hd)] at h
  by_cases hw : 0 ≤ workerId ∧ 0 < maxWorkers
  · rw [if_pos hw] at h
    by_cases hlt : workerId < maxWorkers
    · rw [if_pos hlt] at h
      exact .inl (ProcOutcome.completed.inj h).symm
    · rw [if_neg hlt] at h
      exact absurd h (by simp)
  · rw [if_neg hw] at h
    exact .inr (ProcOutcome.completed.inj h).symm

/-- C1. As stated the claim fails: the source passes the RAW worker id to
lockWorker, not `worker_id % max_workers`.  With `worker_id = 2` and
`max_workers = 2`, the claim predicts a run that locks and unlocks slot
`2 % 2 = 0` around the handler; the code instead panics indexing
`workerChans[2]` on a slice of length 2 — no lock is taken and the
handler never runs. -/
theorem c1_counterexample :
    process 2 2 1 ⟨0, 0⟩ false =
      .panicked "runtime error: index out of range" ∧
    process 2 2 1 ⟨0, 0⟩ false ≠
      .completed (Ev.lockWorkerEv ((2 : Int) % 2) :: Ev.handleEv ::
        Ev.unlockWorkerEv ((2 : Int) % 2) :: processTail 1 ⟨0, 0⟩ false) := by
  refine ⟨rfl, by decide⟩

/-- C1 (amended): for a due message with `max_workers > 0` and
`0 ≤ worker_id < max_workers`, process acquires the slot lock at the raw
index `worker_id` — which equals `worker_id % max_workers` and lies in
`[0, max_workers)` — before invoking the handler and releases it after the
handler returns; for `worker_id ≥ max_workers` the source does not reduce
the index modulo `max_workers` but panics on the out-of-range slot-array
access, so no lock is taken and the handler never runs. -/
theorem c1_slot_lock_raw_index (workerId maxWorkers retryLimit : Int)
    (msg : Msg) (handlerFails : Bool) (hd : msg.delay ≤ 0)
    (h0 : 0 ≤ workerId) (hmw : 0 < maxWorkers) :
    (workerId < maxWorkers →
      process workerId maxWorkers retryLimit msg handlerFails =
        .completed (.lockWorkerEv workerId :: .handleEv ::
          .unlockWorkerEv workerId ::
          processTail retryLimit msg handlerFails) ∧
      workerId % maxWorkers = workerId) ∧
    (maxWorkers ≤ workerId →
      process workerId maxWorkers retryLimit msg handlerFails =
        .panicked "runtime error: index out of range") := by
  constructor
  · intro hlt
    refine ⟨?_, Int.emod_eq_of_lt h0 hlt⟩
    unfold process
    rw [if_neg (not_lt.mpr hd), if_pos ⟨h0, hmw⟩, if_pos hlt]
  · intro hge
    unfold process
    rw [if_neg (not_lt.mpr hd), if_pos ⟨h0, hmw⟩, if_neg (not_lt.mpr hge)]

/-- Witness for c1_slot_lock_raw_index: `worker_id = 1, max_workers = 4`
completes with the lock at raw index 1, and `worker_id = 5,
max_workers = 4` panics. -/
theorem c1_slot_lock_raw_index_witness :
    (process 1 4 1 ⟨0, 0⟩ false =
      .completed (Ev.lockWorkerEv 1 :: Ev.handleEv :: Ev.unlockWorkerEv 1 ::
        processTail 1 ⟨0, 0⟩ false) ∧
     (1 : Int) % 4 = 1) ∧
    process 5 4 1 ⟨0, 0⟩ false =
      .panicked "runtime error: index out of range" :=
  ⟨(c1_slot_lock_raw_index 1 4 1 ⟨0, 0⟩ false (by decide) (by decide)
      (by decide)).1 (by decide),
   (c1_slot_lock_raw_index 5 4 1 ⟨0, 0⟩ false (by decide) (by decide)
      (by decide)).2 (by decide)⟩

/-- C4: when the handler fails on a due message and process completes
(no slot-index panic), a reservation count below the retry limit
increments retries and releases the message (no fail count, no delete);
otherwise the fail count is incremented and the message is deleted (no
retry count, no release).  With `retry_limit = 0` every failing message is
deleted and never released. -/
theorem c4_retry_or_fail (workerId maxWorkers retryLimit : Int) (msg : Msg)
    (hd : msg.delay ≤ 0) :
    ∀ trace : List Ev,
      process workerId maxWorkers retryLimit msg true = .completed trace →
      ((((msg.reservedCount : Int) < retryLimit) →
        Ev.incRetries ∈ trace ∧ Ev.releaseEv true ∈ trace ∧
        Ev.incFails ∉ trace ∧ Ev.deleteEv true ∉ trace) ∧
      ((retryLimit ≤ (msg.reservedCount : Int)) →
        Ev.incFails ∈ trace ∧ Ev.deleteEv true ∈ trace ∧
        Ev.incRetries ∉ trace ∧ Ev.releaseEv true ∉ trace) ∧
      (retryLimit = 0 →
        Ev.deleteEv true ∈ trace ∧ Ev.releaseEv true ∉ trace ∧
        Ev.releaseEv false ∉ trace)) := by
  have htail_lt : (msg.reservedCount : Int) < retryLimit →
      processTail retryLimit msg true = [.incRetries, .releaseEv true] := by
    intro h
    unfold processTail
    rw [if_neg (by simp), if_pos h]
  have htail_ge : retryLimit ≤ (msg.reservedCount : Int) →
      processTail retryLimit msg true = [.incFails, .deleteEv true] := by
    intro h
    unfold processTail
    rw [if_neg (by simp), if_neg (not_lt.mpr h)]
  intro trace htr
  rcases process_completed_shape hd htr with hsh | hsh <;> subst hsh
  · refine ⟨fun h => ?_, fun h => ?_, fun h => ?_⟩
    · rw [htail_lt h]
      refine ⟨by simp, by simp, by simp, by simp⟩
    · rw [htail_ge h]
      refine ⟨by simp, by simp, by simp, by simp⟩
    · rw [htail_ge (by rw [h]; exact Int.ofNat_nonneg _)]
      refine ⟨by simp, by simp, by simp⟩
  · refine ⟨fun h => ?_, fun h => ?_, fun h => ?_⟩
    · rw [htail_lt h]
      refine ⟨by simp, by simp, by simp, by simp⟩
    · rw [htail_ge h]
      refine ⟨by simp, by simp, by simp, by simp⟩
    · rw [htail_ge (by rw [h]; exact Int.ofNat_nonneg _)]
      refine ⟨by simp, by simp, by simp⟩

/-- Witness for c4_retry_or_fail: with `retry_limit = 0` a failing due
message (completed run at `worker_id = -1`) is deleted and never released;
with `retry_limit = 3` and `reserved_count = 1` it is retried and
released. -/
theorem c4_retry_or_fail_witness :
    (Ev.deleteEv true ∈ Ev.handleEv :: processTail 0 ⟨0, 1⟩ true ∧
     Ev.releaseEv true ∉ Ev.handleEv :: processTail 0 ⟨0, 1⟩ true ∧
     Ev.releaseEv false ∉ Ev.handleEv :: processTail 0 ⟨0, 1⟩ true) ∧
    (Ev.incRetries ∈ Ev.handleEv :: processTail 3 ⟨0, 1⟩ true ∧
     Ev.releaseEv true ∈ Ev.handleEv :: processTail 3 ⟨0, 1⟩ true ∧
     Ev.incFails ∉ Ev.handleEv :: processTail 3 ⟨0, 1⟩ true ∧
     Ev.deleteEv true ∉ Ev.handleEv :: processTail 3 ⟨0, 1⟩ true) :=
  ⟨(c4_retry_or_fail (-1) 0 0 ⟨0, 1⟩ (by decide)
      (Ev.handleEv :: processTail 0 ⟨0, 1⟩ true) (by decide)).2.2 rfl,
   (c4_retry_or_fail (-1) 0 3 ⟨0, 1⟩ (by decide)
      (Ev.handleEv :: processTail 3 ⟨0, 1⟩ true) (by decide)).1 (by decide)⟩

/-- Sizing part of `consumerConfig` (src/consumer_config.go:56-64): the
`(NumFetcher, NumWorker)` pair the roulette mutates (int32 in Go). -/
structure ConsumerCfg where
  numFetcher : Int
  numWorker : Int
deriving DecidableEq

/-- Embedding of `(r *configRoulette) withMoreWorkers(n, queueEmpty)`
(src/consumer_config.go:134-143).  `hasFree` stands for the result of
`hasFreeSystemResources()`, an abstract platform predicate not present
under src/; the spec allows implementations that always return true, so it
is passed as a parameter.  `NumWorker` is a Go int32, so the unclamped
`NumWorker += n` wraps into the int32 range. -/
def withMoreWorkers (hasFree queueEmpty : Bool) (n : Int)
    (cfg : ConsumerCfg) : ConsumerCfg :=
  if hasFree = false then cfg
  else if queueEmpty then cfg
  else { cfg with numWorker := wrap32 (cfg.numWorker + n) }

/-- Embedding of `(r *configRoulette) withMoreFetchers()`
(src/consumer_config.go:145-154): one more fetcher (int32 increment, so it
wraps in principle), only while strictly below `opt.MaxNumFetcher`. -/
def withMoreFetchers (hasFree : Bool) (maxNumFetcher : Int)
    (cfg : ConsumerCfg) : ConsumerCfg :=
  if hasFree = false then cfg
  else if maxNumFetcher ≤ cfg.numFetcher then cfg
  else { cfg with numFetcher := wrap32 (cfg.numFetcher + 1) }

/-- Embedding of `(r *configRoulette) Select(currCfg, queueEmpty)`
(src/consumer_config.go:119-132): `incrementConfig` applies
`withMoreWorkers(5, queueEmpty)` and then `withMoreFetchers()` to the
current config.  `hasFreeW`/`hasFreeF` are the two evaluations of the
abstract `hasFreeSystemResources()` predicate. -/
def selectConfig (hasFreeW hasFreeF queueEmpty : Bool) (maxNumFetcher : Int)
    (cfg : ConsumerCfg) : ConsumerCfg :=
  withMoreFetchers hasFreeF maxNumFetcher
    (withMoreWorkers hasFreeW queueEmpty 5 cfg)

/-- C2. As stated the claim fails: the worker step of the roulette adds 5
with no clamp, so a configuration already at its configured worker maximum
leaves Select above that maximum.  Concretely, with worker bounds
`[1, 10]`, fetcher bound 4, free resources and a non-empty queue, a
current config of `(1, 10)` becomes `(2, 15)` and `15 > 10` (all values
int32-exact, far from wrap-around). -/
theorem c2_counterexample :
    selectConfig true true false 4 ⟨1, 10⟩ = ⟨2, 15⟩ ∧
    ¬ ((selectConfig true true false 4 ⟨1, 10⟩).numWorker ≤ 10) := by
  refine ⟨by decide, by decide⟩

lemma withMoreWorkers_spec (hasFree queueEmpty : Bool) (cfg : ConsumerCfg)
    (hw0 : -(2 ^ 31) ≤ cfg.numWorker) (hw1 : cfg.numWorker + 5 < 2 ^ 31) :
    (withMoreWorkers hasFree queueEmpty 5 cfg).numFetcher = cfg.numFetcher ∧
    cfg.numWorker ≤ (withMoreWorkers hasFree queueEmpty 5 cfg).numWorker ∧
    (withMoreWorkers hasFree queueEmpty 5 cfg).numWorker ≤
      cfg.numWorker + 5 := by
  unfold withMoreWorkers
  split_ifs with h1 h2
  · exact ⟨rfl, le_refl _, by omega⟩
  · exact ⟨rfl, le_refl _, by omega⟩
  · refine ⟨rfl, ?_, ?_⟩
    · show cfg.numWorker ≤ wrap32 (cfg.numWorker + 5)
      rw [wrap32_eq_self (by omega) hw1]
      omega
    · show wrap32 (cfg.numWorker + 5) ≤ cfg.numWorker + 5
      rw [wrap32_eq_self (by omega) hw1]

lemma withMoreFetchers_spec (hasFree : Bool) (maxNumFetcher : Int)
    (cfg : ConsumerCfg) (hf0 : -(2 ^ 31) ≤ cfg.numFetcher)
    (hfmax : maxNumFetcher < 2 ^ 31) (hf : cfg.numFetcher ≤ maxNumFetcher) :
    (withMoreFetchers hasFree maxNumFetcher cfg).numWorker = cfg.numWorker ∧
    cfg.numFetcher ≤ (withMoreFetchers hasFree maxNumFetcher cfg).numFetcher ∧
    (withMoreFetchers hasFree maxNumFetcher cfg).numFetcher ≤
      maxNumFetcher := by
  unfold withMoreFetchers
  split_ifs with h1 h2
  · exact ⟨rfl, le_refl _, hf⟩
  · exact ⟨rfl, le_refl _, hf⟩
  · refine ⟨rfl, ?_, ?_⟩
    · show cfg.numFetcher ≤ wrap32 (cfg.numFetcher + 1)
      rw [wrap32_eq_self (by omega) (by omega)]
      omega
    · show wrap32 (cfg.numFetcher + 1) ≤ maxNumFetcher
      rw [wrap32_eq_self (by omega) (by omega)]
      omega

/-- C2 (amended): provided the int32 arithmetic does not overflow (the
current `num_worker + 5` fits in int32 and `MaxNumFetcher` is an int32
value), Select keeps `num_fetcher` within its configured maximum (the
fetcher step is clamped at `MaxNumFetcher`) and never decreases either
field, but the `+5` worker step is unclamped: `num_worker` grows by at
most 5 and may exceed any configured worker maximum already reached; at
`num_worker` near 2^31 the unclamped int32 addition would wrap. -/
theorem c2_select_bounds (hasFreeW hasFreeF queueEmpty : Bool)
    (maxNumFetcher : Int) (cfg : ConsumerCfg)
    (hf : cfg.numFetcher ≤ maxNumFetcher)
    (hf0 : -(2 ^ 31) ≤ cfg.numFetcher)
    (hfmax : maxNumFetcher < 2 ^ 31)
    (hw0 : -(2 ^ 31) ≤ cfg.numWorker)
    (hw1 : cfg.numWorker + 5 < 2 ^ 31) :
    (selectConfig hasFreeW hasFreeF queueEmpty maxNumFetcher cfg).numFetcher ≤
      maxNumFetcher ∧
    cfg.numFetcher ≤
      (selectConfig hasFreeW hasFreeF queueEmpty maxNumFetcher cfg).numFetcher ∧
    cfg.numWorker ≤
      (selectConfig hasFreeW hasFreeF queueEmpty maxNumFetcher cfg).numWorker ∧
    (selectConfig hasFreeW hasFreeF queueEmpty maxNumFetcher cfg).numWorker ≤
      cfg.numWorker + 5 := by
  have hW := withMoreWorkers_spec hasFreeW queueEmpty cfg hw0 hw1
  have hF := withMoreFetchers_spec hasFreeF maxNumFetcher
    (withMoreWorkers hasFreeW queueEmpty 5 cfg)
    (by rw [hW.1]; exact hf0) hfmax (by rw [hW.1]; exact hf)
  unfold selectConfig
  exact ⟨hF.2.2,
    le_trans (le_of_eq hW.1.symm) hF.2.1,
    le_trans hW.2.1 (le_of_eq hF.1.symm),
    le_trans (le_of_eq hF.1) hW.2.2⟩

/-- Witness for c2_select_bounds: current config `(2, 3)`, fetcher maximum
4, free resources, non-empty queue. -/
theorem c2_select_bounds_witness :
    (selectConfig true true false 4 ⟨2, 3⟩).numFetcher ≤ 4 ∧
    (2 : Int) ≤ (selectConfig true true false 4 ⟨2, 3⟩).numFetcher ∧
    (3 : Int) ≤ (selectConfig true true false 4 ⟨2, 3⟩).numWorker ∧
    (selectConfig true true false 4 ⟨2, 3⟩).numWorker ≤ 3 + 5 :=
  c2_select_bounds true true false 4 ⟨2, 3⟩ (by decide) (by decide)
    (by decide) (by decide) (by decide)

/-- State of `perfProfile` (src/consumer_config.go:8-16) with the wall
clock abstracted: `Reset` records the processed/retries baselines and the
start instant; `Update` receives the elapsed time since that instant as an
explicit argument.  Go float64 statistics are modelled as exact
rationals. -/
structure PerfProfile where
  processed : Int
  retries : Int
  timing : Int
  tps : ℚ
  errorRate : ℚ
deriving DecidableEq

/-- Embedding of `(p *perfProfile) Reset(processed, retries)`
(src/consumer_config.go:18-22): record the baselines (the start time
becomes the implicit origin of the elapsed argument to update). -/
def perfReset (processed retries : Int) (p : PerfProfile) : PerfProfile :=
  { p with processed := processed, retries := retries }

/-- Embedding of `(p *perfProfile) Update(processed, retries, timing)`
(src/consumer_config.go:24-40).  `elapsedNS` is `time.Since(p.start)` in
nanoseconds; `elapsedMS` divides it by `float64(time.Millisecond)`. -/
def perfUpdate (processed retries timing : Int) (elapsedNS : ℚ)
    (p : PerfProfile) : PerfProfile :=
  let processedDiff := processed - p.processed
  let retriesDiff := retries - p.retries
  let total := processedDiff + retriesDiff
  let elapsedMS : ℚ := elapsedNS / 1000000
  { p with
    tps := (processedDiff : ℚ) / elapsedMS
    errorRate := if 0 < total then (retriesDiff : ℚ) / (total : ℚ) else 0
    timing := timing }

/-- C7: after a Reset recording baselines `p0, r0`, Update with totals
`pr, rt`, handler timing `tm` and elapsed time `el` ns stores
`tps = (pr - p0) / (el in milliseconds)`, an error rate of
`(rt - r0) / ((pr - p0) + (rt - r0))` when that denominator is positive
and 0 otherwise, and the timing argument itself. -/
theorem c7_perf_update (p : PerfProfile) (p0 r0 pr rt tm : Int) (el : ℚ) :
    (perfUpdate pr rt tm el (perfReset p0 r0 p)).tps =
      ((pr - p0 : Int) : ℚ) / (el / 1000000) ∧
    (0 < (pr - p0) + (rt - r0) →
      (perfUpdate pr rt tm el (perfReset p0 r0 p)).errorRate =
        ((rt - r0 : Int) : ℚ) / (((pr - p0) + (rt - r0) : Int) : ℚ)) ∧
    ((pr - p0) + (rt - r0) ≤ 0 →
      (perfUpdate pr rt tm el (perfReset p0 r0 p)).errorRate = 0) ∧
    (perfUpdate pr rt tm el (perfReset p0 r0 p)).timing = tm := by
  unfold perfUpdate perfReset
  refine ⟨rfl, ?_, ?_, rfl⟩
  · intro h
    simp only [if_pos h]
  · intro h
    simp only [if_neg (not_lt.mpr h)]

/-- Witness for c7_perf_update: baselines (0, 0), totals (10, 5), timing 7,
elapsed 1 ms: tps = 10 per ms, error rate 1/3, timing 7. -/
theorem c7_perf_update_witness :
    (perfUpdate 10 5 7 1000000 (perfReset 0 0 ⟨0, 0, 0, 0, 0⟩)).tps = 10 ∧
    (perfUpdate 10 5 7 1000000 (perfReset 0 0 ⟨0, 0, 0, 0, 0⟩)).errorRate =
      1 / 3 ∧
    (perfUpdate 10 5 7 1000000 (perfReset 0 0 ⟨0, 0, 0, 0, 0⟩)).timing = 7 := by
  have h := c7_perf_update ⟨0, 0, 0, 0, 0⟩ 0 0 10 5 7 1000000
  refine ⟨?_, ?_, h.2.2.2⟩
  · rw [h.1]; norm_num
  · rw [h.2.1 (by norm_num)]; norm_num

/-- Lifecycle-relevant processor state: the atomic `_started` flag, whether
the `stopWorkers` channel has been closed, how many worker and fetcher
goroutines have been launched, and whether the worker wait-group and the
deletion batcher have been waited for (full shutdown). -/
structure PState where
  started : Bool
  stopClosed : Bool
  workersLaunched : Nat
  fetchersLaunched : Nat
  workersWaited : Bool
  batcherWaited : Bool
deriving DecidableEq

/-- Embedding of `(p *Processor) startWorkers()`
(src/processor/processor.go:178-189): CAS `_started` 0→1; on success make
a fresh `stopWorkers` channel and launch `opt.WorkerNumber` workers. -/
def startWorkers (workerNumber : Nat) (s : PState) : PState × Bool :=
  if s.started then (s, false)
  else ({ s with
          started := true
          stopClosed := false
          workersLaunched := s.workersLaunched + workerNumber }, true)

/-- Embedding of `(p *Processor) Start()`
(src/processor/processor.go:167-176): a failed `startWorkers` CAS returns
nil immediately; otherwise one message fetcher is launched in addition. -/
def startProcessor (workerNumber : Nat) (s : PState) :
    PState × Except String Unit :=
  let r := startWorkers workerNumber s
  if r.2 then
    ({ r.1 with fetchersLaunched := r.1.fetchersLaunched + 1 }, .ok ())
  else (r.1, .ok ())

/-- Embedding of `(p *Processor) stopWorkersTimeout(timeout)`
(src/processor/processor.go:202-222).  The CAS `_started` 1→0 happens
first; when already stopped the call is a no-op returning nil.  `drains`
abstracts whether `p.wg.Wait()` finishes before `timeout` elapses: if it
does, `stopWorkers` is closed and workers and batcher are awaited; if not,
an error naming the timeout is returned with no other state change. -/
def stopWorkersTimeout (timeout : Int) (drains : Bool) (s : PState) :
    PState × Except String Unit :=
  if s.started = false then (s, .ok ())
  else
    let s1 := { s with started := false }
    if drains then
      ({ s1 with stopClosed := true, workersWaited := true,
                 batcherWaited := true }, .ok ())
    else (s1, .error ("workers did not stop after " ++ toString timeout))

/-- Started processor state used in concrete scenarios: two workers and
one fetcher launched, nothing waited for. -/
def runningState : PState :=
  { started := true, stopClosed := false, workersLaunched := 2,
    fetchersLaunched := 1, workersWaited := false, batcherWaited := false }

/-- C3. As stated the claim fails: on a drain timeout the error names the
duration and `stopWorkers` stays open, but the `_started` flag was already
flipped to 0 by the CAS, so the processor is marked stopped and a retry of
Stop/StopTimeout is a no-op returning nil — it never closes `stopWorkers`
nor waits for workers or batcher.  Concrete run from a started processor
with timeout 100 and in-flight work that does not drain. -/
theorem c3_counterexample :
    (stopWorkersTimeout 100 false runningState).2 =
      .error ("workers did not stop after " ++ toString (100 : Int)) ∧
    (stopWorkersTimeout 100 false runningState).1.stopClosed = false ∧
    (stopWorkersTimeout 100 false runningState).1.started = false ∧
    stopWorkersTimeout 100 true (stopWorkersTimeout 100 false runningState).1 =
      ((stopWorkersTimeout 100 false runningState).1, .ok ()) ∧
    (stopWorkersTimeout 100 false runningState).1.workersWaited = false ∧
    (stopWorkersTimeout 100 false runningState).1.batcherWaited = false := by
  refine ⟨rfl, rfl, rfl, rfl, rfl, rfl⟩

/-- C3 (amended): when in-flight work does not drain within the timeout,
StopTimeout returns an error naming the duration and leaves `stopWorkers`
un-closed, but the started flag has already been cleared, so the processor
is marked stopped and every later Stop/StopTimeout returns nil immediately
without closing `stopWorkers` or waiting for workers and batcher. -/
theorem c3_stop_timeout (s : PState) (timeout : Int) (hs : s.started = true) :
    (stopWorkersTimeout timeout false s).2 =
      .error ("workers did not stop after " ++ toString timeout) ∧
    (stopWorkersTimeout timeout false s).1.stopClosed = s.stopClosed ∧
    (stopWorkersTimeout timeout false s).1.workersWaited = s.workersWaited ∧
    (stopWorkersTimeout timeout false s).1.batcherWaited = s.batcherWaited ∧
    (stopWorkersTimeout timeout false s).1.started = false ∧
    (∀ timeout2 drains2,
      stopWorkersTimeout timeout2 drains2 (stopWorkersTimeout timeout false s).1 =
        ((stopWorkersTimeout timeout false s).1, .ok ())) := by
  unfold stopWorkersTimeout
  rw [if_neg (by simp [hs]), if_neg Bool.false_ne_true]
  refine ⟨rfl, rfl, rfl, rfl, rfl, ?_⟩
  intro timeout2 drains2
  rw [if_pos rfl]

/-- Witness for c3_stop_timeout from the concrete running state. -/
theorem c3_stop_timeout_witness :
    (stopWorkersTimeout 55 false runningState).2 =
      .error ("workers did not stop after " ++ toString (55 : Int)) ∧
    (stopWorkersTimeout 55 false runningState).1.stopClosed =
      runningState.stopClosed ∧
    (stopWorkersTimeout 55 false runningState).1.workersWaited =
      runningState.workersWaited ∧
    (stopWorkersTimeout 55 false runningState).1.batcherWaited =
      runningState.batcherWaited ∧
    (stopWorkersTimeout 55 false runningState).1.started = false ∧
    (∀ timeout2 drains2,
      stopWorkersTimeout timeout2 drains2
          (stopWorkersTimeout 55 false runningState).1 =
        ((stopWorkersTimeout 55 false runningState).1, .ok ())) :=
  c3_stop_timeout runningState 55 rfl

/-- C9: Start on an already-started processor returns nil and changes
nothing (the CAS fails, so no workers and no fetcher are launched), and
Stop/StopTimeout on an already-stopped processor returns nil and changes
nothing. -/
theorem c9_start_stop_idempotent (s : PState) (workerNumber : Nat)
    (timeout : Int) (drains : Bool) :
    (s.started = true → startProcessor workerNumber s = (s, .ok ())) ∧
    (s.started = false →
      stopWorkersTimeout timeout drains s = (s, .ok ())) := by
  constructor
  · intro hs
    unfold startProcessor startWorkers
    rw [if_pos hs]
    rfl
  · intro hs
    unfold stopWorkersTimeout
    rw [if_pos hs]

/-- Witness for c9_start_stop_idempotent: a second Start from the running
state and a second Stop from the freshly-stopped state are both no-ops
returning nil. -/
theorem c9_start_stop_idempotent_witness :
    startProcessor 3 runningState = (runningState, .ok ()) ∧
    stopWorkersTimeout 77 true
        (stopWorkersTimeout stopTimeoutNS true runningState).1 =
      ((stopWorkersTimeout stopTimeoutNS true runningState).1, .ok ()) :=
  ⟨(c9_start_stop_idempotent runningState 3 77 true).1 rfl,
   (c9_start_stop_idempotent (stopWorkersTimeout stopTimeoutNS true
       runningState).1 3 77 true).2 rfl⟩

/-- Result of one `fetchMessages` call inside the ProcessAll loop
(src/processor/processor.go:333-342): some number of reserved messages, the
`internal.ErrNotSupported` sentinel, or another error (the error cases
return n = 0). -/
inductive FetchResult where
  | fetched (n : Nat) : FetchResult
  | errNotSupported : FetchResult
  | errOther (e : String) : FetchResult
deriving DecidableEq

/-- One iteration of the ProcessAll loop: the `inFlight` counter read at
the top of the loop, and the `fetchMessages` outcome. -/
structure FetchIter where
  inFlight : Nat
  res : FetchResult
deriving DecidableEq

/-- Count of messages returned by a fetch: `fetchMessages` yields 0 on any
error. -/
def fetchCount : FetchResult → Nat
  | .fetched n => n
  | .errNotSupported => 0
  | .errOther _ => 0

/-- Iteration with `n == 0 && isIdle` in the Go loop: nothing fetched and
nothing in flight. -/
def idleIter (it : FetchIter) : Bool :=
  fetchCount it.res == 0 && it.inFlight == 0

/-- How the ProcessAll loop ends: the `noWork == 2` break, or an early
`return err` on a non-ErrNotSupported fetch error. -/
inductive LoopExit where
  | loopBreak : LoopExit
  | loopErr (e : String) : LoopExit
deriving DecidableEq

/-- Embedding of the loop body of `(p *Processor) ProcessAll()`
(src/processor/processor.go:244-269), driven by a finite script of
iterations; `none` means the script ran out with the loop still going.
A fetch error other than ErrNotSupported returns it at once; otherwise an
idle iteration (nothing fetched, nothing in flight) increments `noWork`
and the loop breaks when it reaches 2, while a non-idle iteration resets
`noWork` to 0 — the reset value can never equal 2, so that branch always
continues (the 100 ms ErrNotSupported sleep has no state effect). -/
def processAllLoop (noWork : Nat) : List FetchIter → Option LoopExit
  | [] => none
  | it :: rest =>
      match it.res with
      | .errOther e => some (.loopErr e)
      | _ =>
          if idleIter it then
            if noWork + 1 = 2 then some .loopBreak
            else processAllLoop (noWork + 1) rest
          else processAllLoop 0 rest

/-- Embedding of `(p *Processor) ProcessAll()`: `startWorkers` first, then
the loop; the break path (and only it) calls
`stopWorkersTimeout(stopTimeout)`, while an error path returns the error
with the post-start state untouched. -/
def processAll (workerNumber : Nat) (script : List FetchIter) (drains : Bool)
    (s : PState) : Option (PState × Except String Unit) :=
  let s1 := (startWorkers workerNumber s).1
  match processAllLoop 0 script with
  | none => none
  | some (.loopErr e) => some (s1, .error e)
  | some .loopBreak => some (stopWorkersTimeout stopTimeoutNS drains s1)

/-- Initial processor state right after New: not started, nothing
launched. -/
def freshState : PState :=
  { started := false, stopClosed := false, workersLaunched := 0,
    fetchersLaunched := 0, workersWaited := false, batcherWaited := false }

lemma processAllLoop_errOther {noWork : Nat} {it : FetchIter}
    {rest : List FetchIter} {e : String} (h : it.res = .errOther e) :
    processAllLoop noWork (it :: rest) = some (.loopErr e) := by
  unfold processAllLoop
  rw [h]

lemma processAllLoop_break_two_idle :
    ∀ (script : List FetchIter) (noWork : Nat),
      processAllLoop noWork script = some .loopBreak →
      (∃ pre it1 it2 rest, script = pre ++ it1 :: it2 :: rest ∧
        idleIter it1 = true ∧ idleIter it2 = true) ∨
      (noWork = 1 ∧ ∃ it rest, script = it :: rest ∧ idleIter it = true) := by
  intro script
  induction script with
  | nil =>
      intro noWork h
      simp [processAllLoop] at h
  | cons it rest ih =>
      intro noWork h
      unfold processAllLoop at h
      cases hres : it.res with
      | errOther e => rw [hres] at h; exact absurd h (by simp)
      | fetched n =>
          rw [hres] at h
          cases hidle : idleIter it with
          | false =>
              simp [hidle] at h
              rcases ih 0 h with ⟨pre, it1, it2, rest2, heq, h1, h2⟩ | ⟨h1, _⟩
              · exact .inl ⟨it :: pre, it1, it2, rest2, by simp [heq], h1, h2⟩
              · omega
          | true =>
              simp only [hidle, if_true] at h
              by_cases hnw : noWork + 1 = 2
              · exact .inr ⟨by omega, it, rest, rfl, hidle⟩
              · rw [if_neg hnw] at h
                rcases ih (noWork + 1) h with
                  ⟨pre, it1, it2, rest2, heq, h1, h2⟩ | ⟨h1, it2, rest2, heq, h2⟩
                · exact .inl ⟨it :: pre, it1, it2, rest2, by simp [heq], h1, h2⟩
                · exact .inl ⟨[], it, it2, rest2, by simp [heq], hidle, h2⟩
      | errNotSupported =>
          rw [hres] at h
          cases hidle : idleIter it with
          | false =>
              simp [hidle] at h
              rcases ih 0 h with ⟨pre, it1, it2, rest2, heq, h1, h2⟩ | ⟨h1, _⟩
              · exact .inl ⟨it :: pre, it1, it2, rest2, by simp [heq], h1, h2⟩
              · omega
          | true =>
              simp only [hidle, if_true] at h
              by_cases hnw : noWork + 1 = 2
              · exact .inr ⟨by omega, it, rest, rfl, hidle⟩
              · rw [if_neg hnw] at h
                rcases ih (noWork + 1) h with
                  ⟨pre, it1, it2, rest2, heq, h1, h2⟩ | ⟨h1, it2, rest2, heq, h2⟩
                · exact .inl ⟨it :: pre, it1, it2, rest2, by simp [heq], h1, h2⟩
                · exact .inl ⟨[], it, it2, rest2, by simp [heq], hidle, h2⟩

/-- C10: if a ProcessAll fetch fails with an error other than the
ErrNotSupported sentinel, the loop returns that error at that very
iteration; ProcessAll then propagates it with the post-startWorkers state
unchanged — the started flag still set and the launched workers still
accounted, StopTimeout never called.  The stop path is taken only on the
normal exit, which requires two consecutive idle iterations in the
script. -/
theorem c10_process_all_error_path :
    (∀ (noWork : Nat) (it : FetchIter) (rest : List FetchIter) (e : String),
      it.res = .errOther e →
      processAllLoop noWork (it :: rest) = some (.loopErr e)) ∧
    (∀ (workerNumber : Nat) (script : List FetchIter) (drains : Bool)
        (s : PState) (e : String),
      processAllLoop 0 script = some (.loopErr e) →
      processAll workerNumber script drains s =
        some ((startWorkers workerNumber s).1, .error e) ∧
      (startWorkers workerNumber s).1.started = true ∧
      (s.started = false →
        (startWorkers workerNumber s).1.workersLaunched =
          s.workersLaunched + workerNumber)) ∧
    (∀ (script : List FetchIter),
      processAllLoop 0 script = some .loopBreak →
      ∃ pre it1 it2 rest, script = pre ++ it1 :: it2 :: rest ∧
        idleIter it1 = true ∧ idleIter it2 = true) := by
  refine ⟨fun _ _ _ _ h => processAllLoop_errOther h, ?_, ?_⟩
  · intro workerNumber script drains s e hloop
    refine ⟨?_, ?_, ?_⟩
    · unfold processAll
      rw [hloop]
    · unfold startWorkers
      by_cases hs : s.started = true
      · rw [if_pos hs]; exact hs
      · rw [if_neg hs]
    · intro hs
      unfold startWorkers
      rw [if_neg (by simp [hs])]
  · intro script h
    rcases processAllLoop_break_two_idle script 0 h with hh | ⟨h1, _⟩
    · exact hh
    · omega

/-- Witness for c10_process_all_error_path: a script whose only fetch
fails with "backend down" makes ProcessAll return that error from the
fresh state with workers left started, and a script of two idle
iterations is the minimal normal exit. -/
theorem c10_process_all_error_path_witness :
    processAllLoop 0 [⟨3, .errOther "backend down"⟩] =
      some (.loopErr "backend down") ∧
    processAll 2 [⟨3, .errOther "backend down"⟩] true freshState =
      some ((startWorkers 2 freshState).1, .error "backend down") ∧
    (∃ pre it1 it2 rest,
      ([⟨0, .fetched 0⟩, ⟨0, .fetched 0⟩] : List FetchIter) =
        pre ++ it1 :: it2 :: rest ∧
      idleIter it1 = true ∧ idleIter it2 = true) :=
  ⟨c10_process_all_error_path.1 0 ⟨3, .errOther "backend down"⟩ []
     "backend down" rfl,
   (c10_process_all_error_path.2.1 2 [⟨3, .errOther "backend down"⟩] true
     freshState "backend down" rfl).1,
   c10_process_all_error_path.2.2 [⟨0, .fetched 0⟩, ⟨0, .fetched 0⟩] rfl⟩

/-- Outcome of one `lock.Lock()` attempt inside `lockWorker`
(src/processor/processor.go:532-552): acquired (`ok, nil`), held by
another process (`!ok, nil`), or a lock-service error (`err != nil`). -/
inductive LockAttempt where
  | acquired : LockAttempt
  | busy : LockAttempt
  | failed : LockAttempt
deriving DecidableEq

/-- How `lockWorker` returned: with the shared lock held, or early because
the lock service reported an error (after logging it). -/
inductive LockOutcome where
  | lockHeld : LockOutcome
  | returnedOnError : LockOutcome
deriving DecidableEq

/-- Embedding of `(p *Processor) lockWorker(id)`
(src/processor/processor.go:532-552), driven by the finite script of
`lock.Lock()` results it will observe.  An error logs and RETURNS at once
(without the lock); success returns with the lock held; a busy lock waits
(up to 1234 ms or until a wake token on the slot channel) and retries.
`none` means the script ran out with the loop still retrying. -/
def lockWorkerRun : List LockAttempt → Option LockOutcome
  | [] => none
  | .failed :: _ => some .returnedOnError
  | .acquired :: _ => some .lockHeld
  | .busy :: rest => lockWorkerRun rest

/-- C6. As stated the claim fails: on a lock-service error `lockWorker`
does not keep polling until the lock is held — it returns immediately
without the lock.  Concretely, when the first attempt errors and the
second would succeed, the run ends at the error, not with the lock. -/
theorem c6_counterexample :
    lockWorkerRun [.failed, .acquired] = some .returnedOnError ∧
    lockWorkerRun [.failed, .acquired] ≠ some .lockHeld := by
  refine ⟨rfl, by decide⟩

/-- C6 (amended): only a busy lock (no error) triggers the bounded
1234 ms / wake-token wait and a retry; after any number of busy rounds an
error from the lock service makes lockWorker return at once without the
lock, while a successful acquire returns with the lock held. -/
theorem c6_lock_worker (n : Nat) (rest : List LockAttempt) :
    lockWorkerRun (List.replicate n .busy ++ .failed :: rest) =
      some .returnedOnError ∧
    lockWorkerRun (List.replicate n .busy ++ .acquired :: rest) =
      some .lockHeld := by
  induction n with
  | zero => exact ⟨rfl, rfl⟩
  | succ k ih =>
      simpa only [List.replicate_succ, List.cons_append, lockWorkerRun]
        using ih

end Taskq
